import Mathlib

/-!
Verification of the boxext validation / scoring / security-scanning engine.

Strings of the Python source are modelled as `List Char`; Python byte strings
are likewise modelled as `List Char` (each element one byte / character).
Python `in` on strings is substring containment, modelled by `containsSub`;
`startswith` / `endswith` are `List.isPrefixOf` / `List.isSuffixOf`.
Dictionaries holding site descriptors are modelled as a structure whose fields
carry the `dict.get` defaults used by the code (absent field = default value).
-/

/-- Python substring test `p in s` (always true for the empty pattern). -/
def containsSub (p s : List Char) : Bool :=
  s.tails.any fun t => p.isPrefixOf t

/-- Python `str.lower()`, restricted to the ASCII case mapping. -/
def lowerStr (s : List Char) : List Char :=
  s.map Char.toLower

/-- One manifest site entry (`site` dict), with the `.get` defaults
of `smart_validator.py` and `filter_quality_sites.py` baked in:
`key`/`name`/`api`/`ext`/`jar` default to the empty string, `type` to 0,
`searchable`/`quickSearch` to falsy. -/
structure Site where
  key : List Char := []
  name : List Char := []
  type : Int := 0
  api : List Char := []
  ext : List Char := []
  jar : List Char := []
  searchable : Bool := false
  quickSearch : Bool := false
deriving Repr, DecidableEq

/-- Plugin category returned by `SmartValidator.classify_site`. -/
inductive SiteType where
  | api
  | js
  | python
  | jar
  | unknown
deriving Repr, DecidableEq

/-- `SmartValidator.classify_site` (smart_validator.py lines 42-66). -/
def classifySite (site : Site) : SiteType :=
  let api := site.api
  if site.type = 1 then .api
  else if containsSub ".js".data api || ".js".data.isSuffixOf api then .js
  else if containsSub ".py".data api || ".py".data.isSuffixOf api then .python
  else if containsSub ".jar".data api || site.jar ≠ [] then .jar
  else if "csp_".data.isPrefixOf api then .jar
  else if "http".data.isPrefixOf api then .api
  else .unknown

/-- Classification decision order as worded by the spec (section 4.1):
kind 1 wins, then script-JS suffix, then secondary-script suffix, then archive
suffix or a non-empty archive field, then archive-requiring `csp_` prefix,
then http scheme, else Unknown.  Stated separately from `classifySite`
(which is translated from the code) so the two can be compared. -/
def specClassify (site : Site) : SiteType :=
  if site.type = 1 then .api
  else if containsSub ".js".data site.api || ".js".data.isSuffixOf site.api then .js
  else if containsSub ".py".data site.api || ".py".data.isSuffixOf site.api then .python
  else if containsSub ".jar".data site.api || site.jar ≠ [] then .jar
  else if "csp_".data.isPrefixOf site.api then .jar
  else if "http".data.isPrefixOf site.api then .api
  else .unknown

/- ------------------------------------------------------------------ -/
/- Quality scorer: filter_quality_sites.py                             -/
/- ------------------------------------------------------------------ -/

/-- `QUALITY_KEYWORDS` (filter_quality_sites.py lines 16-20). -/
def QUALITY_KEYWORDS : List (List Char) :=
  ["量子".data, "非凡".data, "索尼".data, "无尽".data, "金鹰".data, "速播".data,
   "樱花".data, "豆瓣".data, "lziapi".data, "ffzyapi".data, "suoniapi".data,
   "wujinapi".data, "jyzyapi".data, "subocaiji".data, "apiyhzy".data, "dbzy".data]

/-- `NETDISK_KEYWORDS` (filter_quality_sites.py lines 23-45). -/
def NETDISK_KEYWORDS : List (List Char) :=
  ["网盘".data, "分享".data, "share".data, "pan".data, "disk".data, "drive".data,
   "阿里".data, "ali".data, "aliyun".data, "alishare".data,
   "夸克".data, "quark".data,
   "115".data, "123".data,
   "迅雷".data, "thunder".data,
   "uc".data, "ucshare".data,
   "pikpak".data,
   "samba".data,
   "玩偶".data, "wogg".data, "wobg".data,
   "蜡笔".data, "labi".data,
   "木偶".data, "mogg".data,
   "土豆".data, "tudou".data,
   "小米".data, "xiaomi".data,
   "表哥".data, "biaoge".data,
   "老哥".data, "laoge".data,
   "tg".data, "telegram".data,
   "alist".data,
   "webdav".data,
   "云盘".data, "yunpan".data,
   "资源分享".data, "pushshare".data,
   "书籍".data, "ebook".data]

/-- An entry of `EXCLUDE_API_PATTERNS`: either a plain literal regex or the
shape `a.*b` (literal, any gap not crossing a newline, literal) — the only two
shapes occurring in the table. -/
inductive ApiPat where
  | lit (s : List Char)
  | gap (a b : List Char)
deriving Repr, DecidableEq

/-- The regex source text of a pattern (recorded in the penalty reason). -/
def patSrc : ApiPat → List Char
  | .lit s => s
  | .gap a b => a ++ ".*".data ++ b

/-- Search for `b` somewhere after the start of `r` with no newline consumed
by the `.*` gap (Python `.` does not match a newline). -/
def gapMatchFrom (b r : List Char) : Bool :=
  (List.range (r.length + 1)).any fun k =>
    b.isPrefixOf (r.drop k) && !((r.take k).contains '\n')

/-- `re.search(pattern, text, re.IGNORECASE)` for the two pattern shapes. -/
def patSearch (p : ApiPat) (text : List Char) : Bool :=
  let t := lowerStr text
  match p with
  | .lit s => containsSub (lowerStr s) t
  | .gap a b =>
      t.tails.any fun tl =>
        (lowerStr a).isPrefixOf tl && gapMatchFrom (lowerStr b) (tl.drop a.length)

/-- `EXCLUDE_API_PATTERNS` (filter_quality_sites.py lines 48-63). -/
def EXCLUDE_API_PATTERNS : List ApiPat :=
  [.gap "csp_".data "Share".data,
   .gap "csp_".data "Pan".data,
   .lit "csp_Wogg".data,
   .lit "csp_Wobg".data,
   .lit "csp_Moli".data,
   .lit "csp_TGYunPan".data,
   .lit "csp_AliShare".data,
   .lit "csp_QuarkShare".data,
   .lit "csp_ThunderShare".data,
   .lit "csp_P115Share".data,
   .lit "csp_UCShare".data,
   .lit "csp_SambaShare".data,
   .lit "csp_PikPakShare".data,
   .lit "csp_PushShare".data]

/-- Result of `rate_site`. -/
structure Rating where
  score : Int
  reasons : List (List Char)
  category : List Char
deriving Repr, DecidableEq

/-- The netdisk-keyword test of `rate_site` step 0:
`kw.lower() in name.lower() or kw.lower() in api.lower()`. -/
def netdiskKwHit (site : Site) (kw : List Char) : Bool :=
  containsSub (lowerStr kw) (lowerStr site.name) || containsSub (lowerStr kw) (lowerStr site.api)

/-- Step 0 of `rate_site` (filter_quality_sites.py lines 81-96): the netdisk
keyword penalty, then — only if not already penalized — the excluded-API
pattern penalty; both skipped entirely when `allow_cloud`. -/
def rateStep0 (site : Site) (allow_cloud : Bool) : Int × List (List Char) :=
  if allow_cloud then (0, [])
  else
    let sKw : Int × List (List Char) :=
      match NETDISK_KEYWORDS.find? (netdiskKwHit site) with
      | some kw => (-100, ["网盘资源(".data ++ kw ++ ")".data])
      | none => (0, [])
    if sKw.1 ≥ 0 then
      match EXCLUDE_API_PATTERNS.find? (fun p => patSearch p site.api) with
      | some p => (sKw.1 - 100, sKw.2 ++ ["网盘插件(".data ++ patSrc p ++ ")".data])
      | none => sKw
    else sKw

/-- Step 1 of `rate_site` (filter_quality_sites.py lines 98-116): category
bonus, accumulating onto the (score, reasons) pair; also yields the category
tag. -/
def rateStep1 (site : Site) (s0 : Int × List (List Char)) :
    (Int × List (List Char)) × List Char :=
  if site.type = 1 then ((s0.1 + 50, s0.2 ++ ["API类型（稳定）".data]), "api".data)
  else if "csp_".data.isPrefixOf site.api then
    ((s0.1 + 20, s0.2 ++ ["CSP插件".data]), "csp".data)
  else if containsSub ".js".data site.api then
    ((s0.1 + 10, s0.2 ++ ["JS插件".data]), "js".data)
  else if containsSub ".py".data site.api then
    ((s0.1 + 10, s0.2 ++ ["Python插件".data]), "python".data)
  else (s0, "unknown".data)

/-- Step 2 of `rate_site` (lines 118-123): known-brand bonus, applied at most
once (case-sensitive in the source). -/
def rateStep2 (site : Site) (s : Int × List (List Char)) : Int × List (List Char) :=
  match QUALITY_KEYWORDS.find?
      (fun kw => containsSub kw site.name || containsSub kw site.api) with
  | some kw => (s.1 + 30, s.2 ++ ["知名站点(".data ++ kw ++ ")".data])
  | none => s

/-- Step 3 of `rate_site` (lines 125-131): capability bonuses. -/
def rateStep3 (site : Site) (s : Int × List (List Char)) : Int × List (List Char) :=
  let a := if site.searchable then (s.1 + 10, s.2 ++ ["可搜索".data]) else s
  if site.quickSearch then (a.1 + 10, a.2 ++ ["快速搜索".data]) else a

/-- Step 4 of `rate_site` (lines 134-137): online-API address bonus. -/
def rateStep4 (site : Site) (s : Int × List (List Char)) : Int × List (List Char) :=
  if "http".data.isPrefixOf site.api then (s.1 + 20, s.2 ++ ["在线API".data]) else s

/-- `rate_site` (filter_quality_sites.py lines 67-143): the steps run in
source order, each accumulating onto the running (score, reasons) pair. -/
def rateSite (site : Site) (allow_cloud : Bool) : Rating :=
  let s0 := rateStep0 site allow_cloud
  let s1 := rateStep1 site s0
  let s2 := rateStep2 site s1.1
  let s3 := rateStep3 site s2
  let s4 := rateStep4 site s3
  { score := s4.1, reasons := s4.2, category := s1.2 }

/-- The contribution of step 1 alone (bonus, reason tags, category):
target of the decomposition lemma `rateStep1_eq`. -/
def catBonus (site : Site) : (Int × List (List Char)) × List Char :=
  if site.type = 1 then ((50, ["API类型（稳定）".data]), "api".data)
  else if "csp_".data.isPrefixOf site.api then ((20, ["CSP插件".data]), "csp".data)
  else if containsSub ".js".data site.api then ((10, ["JS插件".data]), "js".data)
  else if containsSub ".py".data site.api then ((10, ["Python插件".data]), "python".data)
  else ((0, []), "unknown".data)

/-- The contribution of step 2 alone. -/
def brandBonus (site : Site) : Int × List (List Char) :=
  match QUALITY_KEYWORDS.find?
      (fun kw => containsSub kw site.name || containsSub kw site.api) with
  | some kw => (30, ["知名站点(".data ++ kw ++ ")".data])
  | none => (0, [])

/-- The contribution of step 3 alone. -/
def capBonus (site : Site) : Int × List (List Char) :=
  let a : Int × List (List Char) := if site.searchable then (10, ["可搜索".data]) else (0, [])
  if site.quickSearch then (a.1 + 10, a.2 ++ ["快速搜索".data]) else a

/-- The contribution of step 4 alone. -/
def urlBonus (site : Site) : Int × List (List Char) :=
  if "http".data.isPrefixOf site.api then (20, ["在线API".data]) else (0, [])

/-- True when step 0 of `rate_site` (with `allow_cloud = false`) applies its
-100 penalty: some netdisk keyword matches name or address, or otherwise some
excluded-API pattern matches the address. -/
def denylistHit (site : Site) : Bool :=
  NETDISK_KEYWORDS.any (netdiskKwHit site) ||
    EXCLUDE_API_PATTERNS.any (fun p => patSearch p site.api)

/- ------------------------------------------------------------------ -/
/- Security scanner: security.py                                       -/
/- ------------------------------------------------------------------ -/

/-- A fragment of the Python abstract syntax tree sufficient for
`SecurityScanner` (an `ast.NodeVisitor`): named loads, attribute access,
calls (with their source line), `import` / `from ... import` statements
(`importFrom`'s module is `none` for a bare relative import), and a generic
`other` node holding the children that `generic_visit` descends into. -/
inductive PyNode where
  | name (id : List Char)
  | attr (v : PyNode) (a : List Char)
  | call (line : Nat) (fn : PyNode) (args : List PyNode)
  | importStmt (line : Nat) (names : List (List Char))
  | importFrom (line : Nat) (module : Option (List Char))
  | other (kids : List PyNode)

/-- One record appended to `SecurityScanner.issues` / `JarSecurityScanner`
issues: file, line (0 when not line-addressable), type tag and message. -/
structure SecIssue where
  file : List Char
  line : Nat
  itype : List Char
  message : List Char
deriving Repr, DecidableEq

/-- The flagging logic of `SecurityScanner.visit_Call`
(security.py lines 27-65), applied to the `func` child of a call node. -/
def callIssue (file : List Char) (line : Nat) : PyNode → List SecIssue
  | .name id =>
      if id = "eval".data ∨ id = "exec".data ∨ id = "system".data then
        [⟨file, line, "Critical".data,
          "Usage of dangerous function \x27".data ++ id ++ "\x27".data⟩]
      else []
  | .attr (.name m) meth =>
      if m = "os".data ∧ (meth = "system".data ∨ meth = "popen".data ∨
          meth = "remove".data ∨ meth = "unlink".data) then
        [⟨file, line, "High".data,
          "Usage of dangerous os function \x27".data ++ meth ++ "\x27".data⟩]
      else if m = "subprocess".data then
        [⟨file, line, "High".data, "Usage of subprocess module".data⟩]
      else if m = "socket".data then
        [⟨file, line, "Medium".data,
          "Usage of socket (potential network exfiltration)".data⟩]
      else []
  | _ => []

/-- `alias.name in ['subprocess', 'socket', 'telnetlib']`
(security.py line 71). -/
def sensitiveModule (n : List Char) : Bool :=
  n = "subprocess".data ∨ n = "socket".data ∨ n = "telnetlib".data

/-- The issues of `SecurityScanner.visit_Import` for one statement. -/
def importIssues (file : List Char) (line : Nat) (names : List (List Char)) :
    List SecIssue :=
  (names.filter sensitiveModule).map fun n =>
    ⟨file, line, "Medium".data,
      "Import of sensitive module \x27".data ++ n ++ "\x27".data⟩

/-- The issue of `SecurityScanner.visit_ImportFrom` (module `None` never
matches, as in Python). -/
def importFromIssues (file : List Char) (line : Nat) (module : Option (List Char)) :
    List SecIssue :=
  if module = some "subprocess".data ∨ module = some "socket".data then
    [⟨file, line, "Medium".data,
      "Import from sensitive module \x27".data ++ (module.getD []) ++ "\x27".data⟩]
  else []

mutual

/-- The full visitor walk of `SecurityScanner` over one node: the node's own
flagging first (as each `visit_*` appends before `generic_visit`), then the
children in field order. -/
def nodeIssues (file : List Char) : PyNode → List SecIssue
  | .name _ => []
  | .attr v _ => nodeIssues file v
  | .call line fn args => callIssue file line fn ++ nodeIssues file fn ++ nodesIssues file args
  | .importStmt line names => importIssues file line names
  | .importFrom line m => importFromIssues file line m
  | .other kids => nodesIssues file kids

/-- Visitor walk over a list of child nodes, in order. -/
def nodesIssues (file : List Char) : List PyNode → List SecIssue
  | [] => []
  | n :: rest => nodeIssues file n ++ nodesIssues file rest

end

/-- `SecurityScanner.scan_file` (security.py lines 11-25): the parse either
yields a tree (then the visitor runs) or fails with a message (then a single
`Parse Error` issue at line 0 is recorded). -/
def scanFilePy (file : List Char) (parsed : Except (List Char) (List PyNode)) :
    List SecIssue :=
  match parsed with
  | .error msg => [⟨file, 0, "Parse Error".data, msg⟩]
  | .ok tree => nodesIssues file tree

/-- The dangerous constructs of a Python source tree, as the spec describes
them (dynamic-evaluation / dynamic-execution / OS-dispatch builtin calls,
os-facility attribute calls, subprocess / socket attribute calls, sensitive
imports), each with its line.  This is the spec-side inventory against which
the scanner's output is measured. -/
inductive Danger where
  | builtinCall (id : List Char) (line : Nat)
  | osCall (meth : List Char) (line : Nat)
  | subprocessCall (line : Nat)
  | socketCall (line : Nat)
  | sensitiveImport (n : List Char) (line : Nat)
  | sensitiveImportFrom (n : List Char) (line : Nat)
deriving Repr, DecidableEq

/-- The issue the scanner emits for one dangerous construct. -/
def dangerToIssue (file : List Char) : Danger → SecIssue
  | .builtinCall id line =>
      ⟨file, line, "Critical".data,
        "Usage of dangerous function \x27".data ++ id ++ "\x27".data⟩
  | .osCall meth line =>
      ⟨file, line, "High".data,
        "Usage of dangerous os function \x27".data ++ meth ++ "\x27".data⟩
  | .subprocessCall line =>
      ⟨file, line, "High".data, "Usage of subprocess module".data⟩
  | .socketCall line =>
      ⟨file, line, "Medium".data,
        "Usage of socket (potential network exfiltration)".data⟩
  | .sensitiveImport n line =>
      ⟨file, line, "Medium".data,
        "Import of sensitive module \x27".data ++ n ++ "\x27".data⟩
  | .sensitiveImportFrom n line =>
      ⟨file, line, "Medium".data,
        "Import from sensitive module \x27".data ++ n ++ "\x27".data⟩

/-- The dangerous constructs a call's `func` child constitutes. -/
def callDanger (line : Nat) : PyNode → List Danger
  | .name id =>
      if id = "eval".data ∨ id = "exec".data ∨ id = "system".data then
        [.builtinCall id line]
      else []
  | .attr (.name m) meth =>
      if m = "os".data ∧ (meth = "system".data ∨ meth = "popen".data ∨
          meth = "remove".data ∨ meth = "unlink".data) then
        [.osCall meth line]
      else if m = "subprocess".data then [.subprocessCall line]
      else if m = "socket".data then [.socketCall line]
      else []
  | _ => []

mutual

/-- All dangerous constructs in a node, in visitor order. -/
def nodeDangers : PyNode → List Danger
  | .name _ => []
  | .attr v _ => nodeDangers v
  | .call line fn args => callDanger line fn ++ nodeDangers fn ++ nodesDangers args
  | .importStmt line names =>
      (names.filter sensitiveModule).map fun n => .sensitiveImport n line
  | .importFrom line m =>
      if m = some "subprocess".data ∨ m = some "socket".data then
        [.sensitiveImportFrom (m.getD []) line]
      else []
  | .other kids => nodesDangers kids

/-- All dangerous constructs in a list of nodes, in order. -/
def nodesDangers : List PyNode → List Danger
  | [] => []
  | n :: rest => nodeDangers n ++ nodesDangers rest

end

/-- `JarSecurityScanner.signatures` (security.py lines 94-102). -/
def jarSignatures : List (List Char × List Char) :=
  [("java/lang/Runtime".data, "Possible command execution (Runtime)".data),
   ("ProcessBuilder".data, "Possible command execution (ProcessBuilder)".data),
   ("dalvik/system/DexClassLoader".data,
     "Dynamic Code Loading (DexClassLoader) - Critical Risk".data),
   ("dalvik/system/PathClassLoader".data,
     "Dynamic Code Loading (PathClassLoader)".data),
   ("java/net/Socket".data, "Raw Socket Usage".data),
   ("android/os/Looper".data, "Suspicious Looper Usage (often used in exploits)".data),
   ("getExternalStorageDirectory".data, "External Storage Access".data)]

/-- `JarSecurityScanner.scan_file` (security.py lines 104-138); the archive
content is an opaque byte blob (a read failure carries the exception text). -/
def scanFileJar (file : List Char) (content : Except (List Char) (List Char)) :
    List SecIssue :=
  match content with
  | .error msg =>
      [⟨file, 0, "Error".data, "Failed to scan JAR: ".data ++ msg⟩]
  | .ok bytes =>
      (jarSignatures.filterMap fun sig =>
        if containsSub sig.1 bytes then
          some ⟨file, 0,
            (if containsSub "ClassLoader".data sig.1 then "High".data else "Medium".data),
            "Found suspicious signature: ".data ++ sig.2⟩
        else none) ++
      (if ¬ containsSub "java/lang/Object".data bytes ∧
          ¬ containsSub "classes.dex".data bytes then
        [⟨file, 0, "Warning".data,
          "JAR appears packed or encrypted (cannot analyze internals)".data⟩]
      else [])

/-- The directory handed to `scan_plugins`: the `*.py`, `*.jar` and `*.dex`
files found by the three `rglob` walks (in their enumeration order), each
with its parse / read outcome. -/
structure PluginDir where
  pyFiles : List (List Char × Except (List Char) (List PyNode))
  jarFiles : List (List Char × Except (List Char) (List Char))
  dexFiles : List (List Char × Except (List Char) (List Char))

/-- `scan_plugins` (security.py lines 140-163): Python files first, then
jar files, then dex files, concatenating every per-file issue list. -/
def scanPlugins (d : PluginDir) : List SecIssue :=
  (d.pyFiles.map fun f => scanFilePy f.1 f.2).flatten ++
  (d.jarFiles.map fun f => scanFileJar f.1 f.2).flatten ++
  (d.dexFiles.map fun f => scanFileJar f.1 f.2).flatten

/- ------------------------------------------------------------------ -/
/- Quality filtering pipeline: filter_quality_sites.py                 -/
/- ------------------------------------------------------------------ -/

/-- A site together with its rating (the `{'site': ..., 'rating': ...}`
records built by `filter_quality_sites`). -/
structure Rated where
  site : Site
  rating : Rating
deriving Repr, DecidableEq

/-- The comparator of `rated_sites.sort(key=lambda x: score, reverse=True)`:
`a` may stay before `b` when its score is at least `b`'s.  Both Python's
`list.sort` and `List.mergeSort` are stable, so they agree. -/
def scoreDescLe (a b : Rated) : Bool :=
  decide (b.rating.score ≤ a.rating.score)

/-- Return value of `filter_quality_sites` (filter_quality_sites.py lines
184-190); the by-category grouping of the dict is `byCategory` below. -/
structure FilterResult where
  total_sites : Nat
  quality_sites : Nat
  rated_sites : List Rated
  quality_list : List Rated
deriving Repr, DecidableEq

/-- `filter_quality_sites` (filter_quality_sites.py lines 145-190) applied to
the already-parsed site list of one config: rate every site, sort by
descending score, keep those at or above `min_score`. -/
def filterQualitySites (sites : List Site) (min_score : Int) (allow_cloud : Bool) :
    FilterResult :=
  let rated_sites := sites.map fun site => Rated.mk site (rateSite site allow_cloud)
  let sorted := rated_sites.mergeSort scoreDescLe
  let quality := sorted.filter fun rs => decide (min_score ≤ rs.rating.score)
  { total_sites := sites.length, quality_sites := quality.length,
    rated_sites := sorted, quality_list := quality }

/-- The `by_category` grouping (lines 172-181): the quality entries whose
rating carries the given category tag, in list order. -/
def byCategory (quality : List Rated) (cat : List Char) : List Rated :=
  quality.filter fun rs => decide (rs.rating.category = cat)

/-- The key-based deduplication loop of `analyze_all_configs`
(filter_quality_sites.py lines 240-249): first occurrence of each non-empty
key wins; entries with a falsy key are dropped. -/
def dedupByKey : List Rated → List (List Char) → List Rated
  | [], _ => []
  | rs :: rest, seen =>
    if rs.site.key ≠ [] ∧ rs.site.key ∉ seen then
      rs :: dedupByKey rest (rs.site.key :: seen)
    else dedupByKey rest seen

/-- `all_quality_sites` of `analyze_all_configs`: the concatenation of every
config's quality list, in input order. -/
def mergedCandidates (configs : List (List Site)) (min_score : Int)
    (allow_cloud : Bool) : List Rated :=
  (configs.map fun sites =>
    (filterQualitySites sites min_score allow_cloud).quality_list).flatten

/-- `unique_quality_sites` of `analyze_all_configs` after its final sort
(lines 240-252): merged candidates, deduplicated first-seen-wins by key,
sorted by descending score.  `min_score` is a parameter here;
`analyzeAllConfigs` instantiates it to the hard-coded 50. -/
def mergedQualityList (configs : List (List Site)) (min_score : Int)
    (allow_cloud : Bool) : List Rated :=
  (dedupByKey (mergedCandidates configs min_score allow_cloud) []).mergeSort scoreDescLe

/-- The site list `analyze_all_configs` merges into `config_quality.json`,
with its hard-coded `min_score=50`. -/
def analyzeAllConfigs (configs : List (List Site)) (allow_cloud : Bool) :
    List Rated :=
  mergedQualityList configs 50 allow_cloud

/-- Example descriptor used as concrete input of witnesses: a known-brand
kind-1 site with an online address, identity key "a". -/
def exSiteA : Site :=
  { key := "a".data, name := "量子".data, type := 1, api := "http://x".data }

/-- Example descriptor sharing `exSiteA`'s identity key "a". -/
def exSiteB : Site :=
  { key := "a".data, type := 1 }

/- ------------------------------------------------------------------ -/
/- Validator: smart_validator.py                                       -/
/- ------------------------------------------------------------------ -/

/-- Outcome of one `urllib.request.urlopen` call as the validator observes
it: a response (status, body), an `HTTPError`, a `URLError` (with the text of
`e.reason`), or any other exception with its `str(e)` text. -/
inductive NetResp where
  | ok (status : Nat) (content : List Char)
  | httpError (code : Nat)
  | urlError (reason : List Char)
  | exn (msg : List Char)

/-- The validator's environment: the network oracle plus the behaviour of
library primitives whose internals are outside this repository —
`urllib.parse.urljoin`, `urllib.parse.quote`, `Path.resolve`, and the
regex scans `find_js_dependencies` (whose output order also depends on a
Python `set`) and `analyze_js_plugin`.  Every theorem below is universally
quantified over the environment. -/
structure Env where
  net : List Char → NetResp
  urljoin : List Char → List Char → List Char
  quote : List Char → List Char
  resolve : List Char → List Char
  findDeps : List Char → List (List Char)
  extractUrls : List Char → List (List Char)
  extractDomains : List Char → List (List Char)

/-- Python `s.split(sep, 1)` restricted to its success case: the parts
before and after the first occurrence of `sep`, or `none` when `sep` does
not occur (`sep in s` is false). -/
def splitFirst (sep : List Char) : List Char → Option (List Char × List Char)
  | [] => if sep.isPrefixOf [] then some ([], []) else none
  | c :: rest =>
    if sep.isPrefixOf (c :: rest) then some ([], (c :: rest).drop sep.length)
    else (splitFirst sep rest).map fun pr => (c :: pr.1, pr.2)

/-- The defensive URL re-encoding at the top of `download_plugin`
(smart_validator.py lines 113-118): split on `://`, split the remainder on
the first `/`, percent-encode the path part. -/
def encodeUrl (env : Env) (url : List Char) : List Char :=
  match splitFirst "://".data url with
  | none => url
  | some pr =>
    match splitFirst "/".data pr.2 with
    | none => url
    | some dp => pr.1 ++ "://".data ++ dp.1 ++ "/".data ++ env.quote dp.2

/-- `Path(p).name`: the part after the last slash. -/
def pathName (p : List Char) : List Char :=
  (p.reverse.takeWhile fun c => c ≠ '/').reverse

/-- `Path(p).suffix`: the final extension of the name, empty when the name
has no dot, starts with its only dot, or ends with its last dot. -/
def pathSuffix (p : List Char) : List Char :=
  let name := pathName p
  let afterDot := name.reverse.takeWhile fun c => c ≠ '.'
  if afterDot.length = 0 ∨ afterDot.length = name.length ∨
      afterDot.length + 1 = name.length then []
  else '.' :: afterDot.reverse

/-- `Path(p).parent` for the relative/absolute paths the validator builds:
everything before the last slash, or `.` when there is none. -/
def pathParent (p : List Char) : List Char :=
  let name := pathName p
  if name.length = p.length then ".".data
  else p.take (p.length - name.length - 1)

/-- `Path(a) / b` (pathlib join): `b` wins when absolute. -/
def joinPath (a b : List Char) : List Char :=
  if "/".data.isPrefixOf b then b else a ++ "/".data ++ b

/-- `base_url.rsplit('/', 1)[0]`: everything before the last slash. -/
def beforeLastSlash (p : List Char) : List Char :=
  p.take (p.length - (pathName p).length - 1)

/-- Result of one `download_plugin` call over the modelled world: the
returned (ok, content) pair, the file system it leaves behind (the set of
materialized paths), and the trace of attempted network requests, each with
the recursion depth at which it was issued. -/
structure DlResult where
  ok : Bool
  content : Option (List Char)
  fs : List (List Char)
  trace : List (List Char × Nat)

mutual

/-- `SmartValidator.download_plugin` (smart_validator.py lines 103-137):
depth guard, URL re-encoding, fetch, write-through to `output_path`, and —
for `.js` outputs strictly below `max_depth` — recursive dependency
processing.  Any non-response outcome of the fetch (`HTTPError`, `URLError`,
other exception) lands in the same `except Exception` arm. -/
def downloadPlugin (env : Env) (url outputPath : List Char)
    (depth maxDepth : Nat) (fs : List (List Char)) : DlResult :=
  if depth > maxDepth then ⟨false, none, fs, []⟩
  else
    let url1 := encodeUrl env url
    match env.net url1 with
    | .ok status content =>
      if status = 200 then
        let fs1 := outputPath :: fs
        if h : pathSuffix outputPath = ".js".data ∧ depth < maxDepth then
          let r := processJsDeps env url1 content outputPath depth maxDepth fs1
          ⟨true, some content, r.1, (url1, depth) :: r.2⟩
        else ⟨true, some content, fs1, [(url1, depth)]⟩
      else ⟨false, none, fs, [(url1, depth)]⟩
    | _ => ⟨false, none, fs, [(url1, depth)]⟩
termination_by (maxDepth + 1 - depth, 0)

/-- `SmartValidator._process_js_dependencies` (lines 139-181): decode
(modelled as the identity, `errors='ignore'`), extract dependency
specifiers, walk them. -/
def processJsDeps (env : Env) (baseUrl content curPath : List Char)
    (depth maxDepth : Nat) (fs : List (List Char)) :
    List (List Char) × List (List Char × Nat) :=
  processDepList env (env.findDeps content) baseUrl curPath depth maxDepth fs
termination_by (maxDepth - depth, (env.findDeps content).length + 1)

/-- The `for dep in deps` loop of `_process_js_dependencies`: skip absolute
network specifiers, resolve the dependency URL against the fetched
resource's directory and its cache path against the current file's parent,
and fetch one level deeper unless the cache path already exists. -/
def processDepList (env : Env) (deps : List (List Char))
    (baseUrl curPath : List Char) (depth maxDepth : Nat)
    (fs : List (List Char)) : List (List Char) × List (List Char × Nat) :=
  match deps with
  | [] => (fs, [])
  | dep :: rest =>
    if "http".data.isPrefixOf dep then
      processDepList env rest baseUrl curPath depth maxDepth fs
    else
      let baseDirUrl :=
        if containsSub "/".data baseUrl then beforeLastSlash baseUrl ++ "/".data
        else baseUrl ++ "/".data
      let depUrl := env.urljoin baseDirUrl dep
      let depPath := env.resolve (joinPath (pathParent curPath) dep)
      if depPath ∈ fs then
        processDepList env rest baseUrl curPath depth maxDepth fs
      else
        let r := downloadPlugin env depUrl depPath (depth + 1) maxDepth fs
        let rr := processDepList env rest baseUrl curPath depth maxDepth r.fs
        (rr.1, r.trace ++ rr.2)
termination_by (maxDepth - depth, deps.length)

end

/-- The content-shape check of `test_api_site` (smart_validator.py line 90):
body holds an RSS/XML marker or a JSON-object opening brace. -/
def hasApiMarker (c : List Char) : Bool :=
  containsSub "<rss".data c || containsSub "<?xml".data c || containsSub "\x7b".data c

/-- Outcome of `test_api_site`: verdict, reason, and the URLs requested. -/
structure ApiProbe where
  valid : Bool
  reason : List Char
  trace : List (List Char)
deriving Repr, DecidableEq

/-- `SmartValidator.test_api_site` (smart_validator.py lines 68-101). -/
def testApiSite (env : Env) (site : Site) (baseUrl : List Char) : ApiProbe :=
  let api0 := site.api
  if ¬ "http".data.isPrefixOf api0 ∧ baseUrl = [] then
    ⟨false, "相对路径但无基础URL".data, []⟩
  else
    let api := if "http".data.isPrefixOf api0 then api0 else env.urljoin baseUrl api0
    match env.net api with
    | .ok status content =>
      if status = 200 then
        if hasApiMarker content then ⟨true, "API 可访问".data, [api]⟩
        else ⟨false, "返回内容格式异常".data, [api]⟩
      else ⟨false, "HTTP ".data ++ (Nat.repr status).data, [api]⟩
    | .httpError code => ⟨false, "HTTP ".data ++ (Nat.repr code).data, [api]⟩
    | .urlError r => ⟨false, "URL Error: ".data ++ r, [api]⟩
    | .exn m => ⟨false, m, [api]⟩

/-- The URL `test_api_site` resolves and requests, when it requests one
(spec-side description used by the C6 theorem). -/
def resolveApiUrl (env : Env) (site : Site) (baseUrl : List Char) :
    Option (List Char) :=
  if "http".data.isPrefixOf site.api then some site.api
  else if baseUrl = [] then none
  else some (env.urljoin baseUrl site.api)

/-- The category string `classify_site` returns in the source (it returns
strings; the Lean model uses `SiteType`). -/
def typeStr : SiteType → List Char
  | .api => "api".data
  | .js => "js".data
  | .python => "python".data
  | .jar => "jar".data
  | .unknown => "unknown".data

/-- `SmartValidator.classify_plugin_variant` (smart_validator.py lines
247-270). -/
def classifyPluginVariant (t : SiteType) (content : List Char) : List Char :=
  if t = .js ∧ (containsSub "drpy-core".data content ∨
      containsSub "drpy2".data content ∨ containsSub "//DRPY".data content) then
    "js_drpy".data
  else if t = .python ∧ (containsSub "Spider".data content ∧
      containsSub "getDependence".data content) then
    "py_t3".data
  else typeStr t ++ "_standalone".data

/-- Python dict assignment `results[url] = v`: overwrite when present,
append otherwise. -/
def updateAssoc (m : List (List Char × Bool)) (k : List Char) (v : Bool) :
    List (List Char × Bool) :=
  if m.any fun p => p.1 = k then
    m.map fun p => if p.1 = k then (k, v) else p
  else m ++ [(k, v)]

/-- `SmartValidator.test_plugin_urls` (smart_validator.py lines 272-289):
probe the first 10 URLs, each judged reachable iff it answers with status
200; a probe that raises is recorded false.  Returns the result dict and
the request trace. -/
def testPluginUrls (env : Env) (urls : List (List Char)) :
    List (List Char × Bool) × List (List Char) :=
  (urls.take 10).foldl
    (fun acc url =>
      let v := match env.net url with
        | .ok status _ => status = 200
        | _ => false
      (updateAssoc acc.1 url v, acc.2 ++ [url]))
    ([], [])

/-- `re.sub(r'[^\w\-]', '_', key)` (ASCII reading of `\w`). -/
def sanitizeKey (k : List Char) : List Char :=
  k.map fun c => if c.isAlphanum ∨ c = '_' ∨ c = '-' then c else '_'

/-- `site.get('key', 'unknown')` as `validate_site` reads it (an absent key
is modelled as the empty string). -/
def validateKey (site : Site) : List Char :=
  if site.key = [] then "unknown".data else site.key

/-- `site.get('name', 'unknown')`. -/
def validateName (site : Site) : List Char :=
  if site.name = [] then "unknown".data else site.name

/-- The absolute-or-joined URL pattern `x if x.startswith('http') else
urljoin(base_url, x)` used for plugin and jar addresses. -/
def pluginUrlOf (env : Env) (baseUrl x : List Char) : List Char :=
  if "http".data.isPrefixOf x then x else env.urljoin baseUrl x

/-- `'.js' if site_type == 'js' else '.py'`. -/
def scriptFileExt (stype : SiteType) : List Char :=
  if stype = .js then ".js".data else ".py".data

/-- The per-site record `validate_site` builds (`info` dict): key, name,
resolved category, verdict, diagnostic reason, the optional URL/domain
analysis of a js plugin, and the optional variant tag. -/
structure VInfo where
  key : List Char
  name : List Char
  stype : SiteType
  valid : Bool
  reason : List Char
  analysis : Option (List (List Char) × List (List Char)) := none
  variant : Option (List Char) := none
deriving Repr, DecidableEq

/-- Result of `validate_site` over the modelled world: the returned
(valid, info) pair, the (possibly mutated) descriptor, the file system left
behind, and the trace of requested URLs. -/
structure VRes where
  valid : Bool
  info : VInfo
  site : Site
  fs : List (List Char)
  trace : List (List Char)

/-- The `js`/`python` branch of `validate_site` (smart_validator.py lines
318-383): fetch the plugin, fingerprint it, for js probe its embedded URLs,
and — on every successful download, regardless of the verdict — rewrite the
descriptor's address (and matching `ext`) to the local cache path. -/
def validateScript (env : Env) (site : Site) (baseUrl downloadDir : List Char)
    (fs : List (List Char)) (stype : SiteType) (key : List Char)
    (info0 : VInfo) : VRes :=
  let api := site.api
  let pluginUrl := pluginUrlOf env baseUrl api
  let fileExt := scriptFileExt stype
  let safeKey := sanitizeKey key
  let outputPath := downloadDir ++ "/".data ++ safeKey ++ fileExt
  let dl := downloadPlugin env pluginUrl outputPath 0 3 fs
  if dl.ok ∧ dl.content.getD [] ≠ [] then
    let content := dl.content.getD []
    let variant := classifyPluginVariant stype content
    -- the [CRITICAL] in-place rewrite (lines 373-378), applied on every
    -- successful download regardless of the verdict computed above it
    let relPath := "./plugins/".data ++ safeKey ++ fileExt
    let site' : Site := { site with
      api := relPath,
      ext := if site.ext = api then relPath else site.ext }
    if stype = .js then
      let urls := env.extractUrls content
      let domains := env.extractDomains content
      if urls ≠ [] then
        let tr := testPluginUrls env urls
        let validCount := (tr.1.filter fun p => p.2).length
        let totalCount := tr.1.length
        if validCount > 0 then
          ⟨true, { info0 with
            valid := true,
            reason := "插件可用，".data ++ (Nat.repr validCount).data ++
              "/".data ++ (Nat.repr totalCount).data ++ " URL 可访问".data,
            analysis := some (urls, domains), variant := some variant },
            site', dl.fs, dl.trace.map Prod.fst ++ tr.2⟩
        else
          ⟨false, { info0 with
            valid := false, reason := "插件内 URL 全部失效".data,
            analysis := some (urls, domains), variant := some variant },
            site', dl.fs, dl.trace.map Prod.fst ++ tr.2⟩
      else
        ⟨true, { info0 with
          valid := true, reason := "插件已下载（无静态URL）".data,
          analysis := some (urls, domains), variant := some variant },
          site', dl.fs, dl.trace.map Prod.fst⟩
    else
      ⟨true, { info0 with
        valid := true, reason := "Python 插件已下载".data,
        variant := some variant }, site', dl.fs, dl.trace.map Prod.fst⟩
  else
    ⟨false, { info0 with valid := false, reason := "插件下载失败".data },
      site, dl.fs, dl.trace.map Prod.fst⟩

/-- The `jar` branch of `validate_site` (smart_validator.py lines 385-428). -/
def validateJar (env : Env) (site : Site) (baseUrl downloadDir : List Char)
    (fs : List (List Char)) (key : List Char) (info0 : VInfo) : VRes :=
  let api := site.api
  if ¬ "csp_".data.isPrefixOf api then
    ⟨true, { info0 with valid := true, reason := "非 CSP 插件，使用全局 JAR".data },
      site, fs, []⟩
  else
    let jarUrl0 := site.jar
    if jarUrl0 = [] then
      ⟨true, { info0 with valid := true, reason := "CSP 插件，使用全局 JAR".data },
        site, fs, []⟩
    else
      let jarUrl1 := if containsSub ";md5;".data jarUrl0 then
          match splitFirst ";md5;".data jarUrl0 with
          | some pr => pr.1
          | none => jarUrl0
        else jarUrl0
      let jarUrl := pluginUrlOf env baseUrl jarUrl1
      let safeKey := sanitizeKey key
      let outputPath := downloadDir ++ "/jar/".data ++ safeKey ++ ".jar".data
      let dl := downloadPlugin env jarUrl outputPath 0 3 fs
      if dl.ok then
        ⟨true, { info0 with
          valid := true,
          reason := "JAR 已下载 (".data ++
            (Nat.repr (dl.content.getD []).length).data ++ " bytes)".data },
          { site with jar := "./plugins/jar/".data ++ safeKey ++ ".jar".data },
          dl.fs, dl.trace.map Prod.fst⟩
      else
        ⟨false, { info0 with valid := false, reason := "JAR 下载失败".data },
          site, dl.fs, dl.trace.map Prod.fst⟩

/-- `SmartValidator.validate_site` (smart_validator.py lines 291-435): the
category dispatch; the script and jar blocks are `validateScript` /
`validateJar` above.  A descriptor with an absent `key` (modelled as the
empty string) takes the `.get('key', 'unknown')` default, likewise `name`. -/
def validateSite (env : Env) (site : Site) (baseUrl downloadDir : List Char)
    (fs : List (List Char)) : VRes :=
  let key := validateKey site
  let name := validateName site
  let stype := classifySite site
  let info0 : VInfo := { key := key, name := name, stype := stype,
                         valid := false, reason := [] }
  if stype = .api then
    let p := testApiSite env site baseUrl
    ⟨p.valid, { info0 with valid := p.valid, reason := p.reason }, site, fs, p.trace⟩
  else if stype = .js ∨ stype = .python then
    validateScript env site baseUrl downloadDir fs stype key info0
  else if stype = .jar then
    validateJar env site baseUrl downloadDir fs key info0
  else
    ⟨false, { info0 with valid := false, reason := "未知类型".data }, site, fs, []⟩

/-- An element of a manifest's `lives` array: a dict (with its `url`, the
`.get('url', '')` default baked in) or any non-dict value. -/
inductive LiveEntry where
  | dict (url : List Char)
  | other
deriving Repr, DecidableEq

/-- A parsed manifest (`config` dict) as `validate_config` consumes it,
with `.get` defaults baked in; `wallpaper` is `none` when absent (its
default is applied when the clean config is built). -/
structure VConfig where
  spider : List Char := []
  wallpaper : Option (List Char) := none
  sites : List Site := []
  parses : List (List Char) := []
  lives : List LiveEntry := []

/-- The cleaned manifest `validate_config` writes (lines 480-487). -/
structure CleanConfig where
  spider : List Char
  wallpaper : List Char
  sites : List Site
  parses : List (List Char)
  lives : List LiveEntry

/-- The validation report `validate_config` writes (lines 495-502),
restricted to its count fields and per-site records. -/
structure VReport where
  total_sites : Nat
  valid_sites : Nat
  invalid_sites : Nat
  validation_details : List VInfo

/-- The per-site loop of `validate_config` (lines 468-477): validate each
site in order, threading the cache directory, collecting the detail records
and partitioning the (possibly rewritten) descriptors by verdict. -/
def runSites (env : Env) (baseUrl downloadDir : List Char) :
    List Site → List (List Char) →
    List VInfo × List Site × List Site × List (List Char)
  | [], fs => ([], [], [], fs)
  | site :: rest, fs =>
    let r := validateSite env site baseUrl downloadDir fs
    let acc := runSites env baseUrl downloadDir rest r.fs
    (r.info :: acc.1,
     if r.valid then r.site :: acc.2.1 else acc.2.1,
     if r.valid then acc.2.2.1 else r.site :: acc.2.2.1,
     acc.2.2.2)

/-- `SmartValidator.validate_config` (smart_validator.py lines 437-518) after
a successful manifest download: the report and the clean manifest (live
sources restricted to dict entries with a fully-qualified address). -/
def validateConfig (env : Env) (config : VConfig) (baseUrl downloadDir : List Char)
    (fs : List (List Char)) : VReport × CleanConfig :=
  let run := runSites env baseUrl downloadDir config.sites fs
  ({ total_sites := config.sites.length,
     valid_sites := run.2.1.length,
     invalid_sites := run.2.2.1.length,
     validation_details := run.1 },
   { spider := config.spider,
     wallpaper := config.wallpaper.getD "./bgwall.jpg".data,
     sites := run.2.1,
     parses := config.parses,
     lives := config.lives.filter fun l =>
       match l with
       | .dict url => "http".data.isPrefixOf url
       | .other => false })

/-- A concrete environment used by witnesses: every request raises, the
library primitives are trivial. -/
def exEnv : Env :=
  { net := fun _ => .exn "boom".data,
    urljoin := fun a b => a ++ b,
    quote := fun p => p,
    resolve := fun p => p,
    findDeps := fun _ => [],
    extractUrls := fun _ => [],
    extractDomains := fun _ => [] }

/-- A concrete environment whose every request answers 200 with a JSON
body, used by witnesses. -/
def exEnvOkJson : Env :=
  { net := fun _ => .ok 200 "\x7b\x7d".data,
    urljoin := fun a b => a ++ b,
    quote := fun p => p,
    resolve := fun p => p,
    findDeps := fun _ => [],
    extractUrls := fun _ => [],
    extractDomains := fun _ => [] }

/-- A concrete environment for script witnesses: the plugin address answers
200 with body "X", every other URL raises; the body analysis finds one dead
URL. -/
def exEnvJs : Env :=
  { net := fun u => if u = "http://p.js".data then .ok 200 "X".data
      else .exn "down".data,
    urljoin := fun a b => a ++ b,
    quote := fun p => p,
    resolve := fun p => p,
    findDeps := fun _ => [],
    extractUrls := fun _ => ["http://dead".data],
    extractDomains := fun _ => ["dead".data] }

/-- A concrete js-plugin site whose `ext` equals its address. -/
def exJsSite : Site :=
  { key := "k".data, api := "http://p.js".data, ext := "http://p.js".data }

/- ================================================================== -/
/- Theorems                                                            -/
/- ================================================================== -/

/-- Helper: step 1 accumulates exactly the `catBonus` contribution. -/
theorem rateStep1_eq (site : Site) (s : Int × List (List Char)) :
    rateStep1 site s =
      ((s.1 + (catBonus site).1.1, s.2 ++ (catBonus site).1.2), (catBonus site).2) := by
  unfold rateStep1 catBonus
  split_ifs <;> simp

/-- Helper: step 2 accumulates exactly the `brandBonus` contribution. -/
theorem rateStep2_eq (site : Site) (s : Int × List (List Char)) :
    rateStep2 site s = (s.1 + (brandBonus site).1, s.2 ++ (brandBonus site).2) := by
  unfold rateStep2 brandBonus
  cases QUALITY_KEYWORDS.find?
      (fun kw => containsSub kw site.name || containsSub kw site.api)
  all_goals simp

/-- Helper: step 3 accumulates exactly the `capBonus` contribution. -/
theorem rateStep3_eq (site : Site) (s : Int × List (List Char)) :
    rateStep3 site s = (s.1 + (capBonus site).1, s.2 ++ (capBonus site).2) := by
  unfold rateStep3 capBonus
  split_ifs <;> simp
  all_goals omega

/-- Helper: step 4 accumulates exactly the `urlBonus` contribution. -/
theorem rateStep4_eq (site : Site) (s : Int × List (List Char)) :
    rateStep4 site s = (s.1 + (urlBonus site).1, s.2 ++ (urlBonus site).2) := by
  unfold rateStep4 urlBonus
  split_ifs <;> simp

/-- Helper: `rate_site` decomposes as the step-0 result plus the four bonus
contributions, each independent of the others. -/
theorem rateSite_decomp (site : Site) (allow_cloud : Bool) :
    rateSite site allow_cloud =
      { score := (rateStep0 site allow_cloud).1 + (catBonus site).1.1 +
          (brandBonus site).1 + (capBonus site).1 + (urlBonus site).1,
        reasons := (rateStep0 site allow_cloud).2 ++ (catBonus site).1.2 ++
          (brandBonus site).2 ++ (capBonus site).2 ++ (urlBonus site).2,
        category := (catBonus site).2 } := by
  simp only [rateSite]
  rw [rateStep1_eq, rateStep2_eq, rateStep3_eq, rateStep4_eq]

/-- Helper: when a denylist keyword or excluded pattern matches, step 0 of
`rate_site` (with `allow_cloud = false`) yields exactly -100 and one reason. -/
theorem rateStep0_hit (site : Site) (h : denylistHit site = true) :
    ∃ r, rateStep0 site false = (-100, [r]) := by
  unfold denylistHit at h
  unfold rateStep0
  cases hk : NETDISK_KEYWORDS.find? (netdiskKwHit site) with
  | some kw => simp
  | none =>
    have hkAll := List.find?_eq_none.mp hk
    have hpAny : EXCLUDE_API_PATTERNS.any (fun p => patSearch p site.api) = true := by
      rcases Bool.or_eq_true_iff.mp h with h1 | h1
      · exfalso
        rcases List.any_eq_true.mp h1 with ⟨kw, hkw, hhit⟩
        exact hkAll kw hkw hhit
      · exact h1
    rcases List.any_eq_true.mp hpAny with ⟨p, hp, hps⟩
    cases hfq : EXCLUDE_API_PATTERNS.find? (fun q => patSearch q site.api) with
    | some q => simp
    | none => exact absurd hps (List.find?_eq_none.mp hfq p hp)

/-- C1 counterexample: for the descriptor with name "pan" and kind 1 and
`allow_cloud = false`, the denylist penalty fires, yet the final score is
-50 (the -100 penalty plus the +50 category bonus) and a second, positive
reason tag was recorded — so the first denylist match does NOT short-circuit
further positive scoring, contradicting the claim. -/
theorem rateSite_denylist_no_shortcircuit_cex :
    denylistHit { name := "pan".data, type := 1 } = true ∧
    (rateSite { name := "pan".data, type := 1 } false).score = -50 ∧
    (rateSite { name := "pan".data, type := 1 } false).reasons =
      ["网盘资源(pan)".data, "API类型（稳定）".data] := by
  decide

/-- C1 (amended): in `rate_site` with `allow_cloud = false`, when a denylist
keyword or excluded-API pattern matches, the first match subtracts exactly 100
and records one reason, short-circuiting only the remaining denylist checks;
every category / known-brand / capability / network-URL bonus is still added
afterwards, so the score is exactly 100 less than the `allow_cloud = true`
score of the same descriptor. -/
theorem rateSite_denylist_penalty (site : Site) (h : denylistHit site = true) :
    (rateSite site false).score = (rateSite site true).score - 100 ∧
    (rateSite site false).category = (rateSite site true).category ∧
    ∃ r, (rateSite site false).reasons = r :: (rateSite site true).reasons := by
  obtain ⟨r, hr⟩ := rateStep0_hit site h
  have ht : rateStep0 site true = (0, []) := rfl
  rw [rateSite_decomp site false, rateSite_decomp site true, hr, ht]
  refine ⟨?_, rfl, r, ?_⟩
  · simp only
    omega
  · simp

/-- C1 witness: the amended theorem applied to a concrete denylisted site. -/
theorem rateSite_denylist_penalty_witness :
    denylistHit { name := "阿里云盘".data, type := 1 : Site } = true ∧
    (rateSite { name := "阿里云盘".data, type := 1 } false).score =
      (rateSite { name := "阿里云盘".data, type := 1 } true).score - 100 :=
  ⟨by decide, (rateSite_denylist_penalty _ (by decide)).1⟩

/-- C2: `classify_site` is a total pure function of the descriptor (it is a
Lean function) agreeing with the spec's first-match decision order
(`specClassify`), and for every descriptor with kind 1 it returns API
regardless of all other fields. -/
theorem classifySite_decision_order (site : Site) :
    classifySite site = specClassify site ∧
      (site.type = 1 → classifySite site = .api) := by
  constructor
  · rfl
  · intro h
    simp [classifySite, h]

/-- C2 witness: a kind-1 descriptor whose other fields would otherwise
classify it as a script or archive plugin is still classified API. -/
theorem classifySite_decision_order_witness :
    classifySite { type := 1, api := "x.js".data, jar := "a.jar".data } = .api :=
  (classifySite_decision_order _).2 rfl

/-- Helper: the call-flagging logic emits exactly the issues of the dangerous
constructs that the call's `func` child constitutes. -/
theorem callIssue_eq (file : List Char) (line : Nat) (fn : PyNode) :
    callIssue file line fn = (callDanger line fn).map (dangerToIssue file) := by
  cases fn with
  | name id =>
    simp only [callIssue, callDanger]
    split_ifs <;> simp [dangerToIssue]
  | attr v a =>
    cases v <;> simp only [callIssue, callDanger, List.map_nil] <;>
      split_ifs <;> simp [dangerToIssue]
  | call line fn args => rfl
  | importStmt line names => rfl
  | importFrom line m => rfl
  | other kids => rfl

mutual

/-- Helper: the scanner's visitor walk emits exactly one issue per dangerous
construct, in visitor order, with the severity and message determined by the
construct. -/
theorem nodeIssues_eq_dangers (file : List Char) :
    ∀ n, nodeIssues file n = (nodeDangers n).map (dangerToIssue file)
  | .name _ => rfl
  | .attr v a => by
      simp only [nodeIssues, nodeDangers]
      exact nodeIssues_eq_dangers file v
  | .call line fn args => by
      simp only [nodeIssues, nodeDangers, List.map_append]
      rw [callIssue_eq, nodeIssues_eq_dangers file fn, nodesIssues_eq_dangers file args]
  | .importStmt line names => by
      simp only [nodeIssues, nodeDangers, importIssues, List.map_map]
      rfl
  | .importFrom line m => by
      simp only [nodeIssues, nodeDangers, importFromIssues]
      split_ifs <;> simp [dangerToIssue]
  | .other kids => by
      simp only [nodeIssues, nodeDangers]
      exact nodesIssues_eq_dangers file kids

/-- Helper: list version of `nodeIssues_eq_dangers`. -/
theorem nodesIssues_eq_dangers (file : List Char) :
    ∀ l, nodesIssues file l = (nodesDangers l).map (dangerToIssue file)
  | [] => rfl
  | n :: rest => by
      simp only [nodesIssues, nodesDangers, List.map_append]
      rw [nodeIssues_eq_dangers file n, nodesIssues_eq_dangers file rest]

end

/-- C8: scanning a directory containing exactly one Python script file whose
only dangerous construct is a direct call to the dynamic-code-evaluation
builtin `eval` at line 12 produces exactly one SecurityIssue, of severity
Critical, with line 12. -/
theorem scanPlugins_single_critical_eval (p : List Char) (tree : List PyNode)
    (h : nodesDangers tree = [.builtinCall "eval".data 12]) :
    scanPlugins { pyFiles := [(p, .ok tree)], jarFiles := [], dexFiles := [] } =
      [⟨p, 12, "Critical".data,
        "Usage of dangerous function \x27eval\x27".data⟩] := by
  simp [scanPlugins, scanFilePy, nodesIssues_eq_dangers, h, dangerToIssue]

/-- C8 witness: a concrete one-file directory — a benign import, an `eval`
call at line 12 and an inert node — yields exactly the one Critical issue. -/
theorem scanPlugins_single_critical_eval_witness :
    scanPlugins
      { pyFiles := [("plugins/a.py".data,
          .ok [.importStmt 3 ["json".data],
               .call 12 (.name "eval".data) [.name "x".data],
               .other []])],
        jarFiles := [], dexFiles := [] } =
      [⟨"plugins/a.py".data, 12, "Critical".data,
        "Usage of dangerous function \x27eval\x27".data⟩] :=
  scanPlugins_single_critical_eval _ _ (by decide)

/-- Helper: deduplication only keeps entries of its input list. -/
theorem dedupByKey_subset :
    ∀ (l : List Rated) (seen : List (List Char)), ∀ r ∈ dedupByKey l seen, r ∈ l := by
  intro l
  induction l with
  | nil => intro seen r hr; simp [dedupByKey] at hr
  | cons x rest ih =>
    intro seen r hr
    simp only [dedupByKey] at hr
    split_ifs at hr with hc
    · rcases List.mem_cons.mp hr with h | h
      · simp [h]
      · exact List.mem_cons_of_mem x (ih _ r h)
    · exact List.mem_cons_of_mem x (ih _ r hr)

/-- Helper: after deduplication the keys are pairwise distinct, non-empty,
and none of them was already seen. -/
theorem dedupByKey_keys :
    ∀ (l : List Rated) (seen : List (List Char)),
      ((dedupByKey l seen).map fun r => r.site.key).Nodup ∧
      ∀ r ∈ dedupByKey l seen, r.site.key ∉ seen ∧ r.site.key ≠ [] := by
  intro l
  induction l with
  | nil => intro seen; simp [dedupByKey]
  | cons x rest ih =>
    intro seen
    simp only [dedupByKey]
    split_ifs with hc
    · obtain ⟨h1, h2⟩ := ih (x.site.key :: seen)
      refine ⟨?_, ?_⟩
      · rw [List.map_cons, List.nodup_cons]
        refine ⟨?_, h1⟩
        intro hmem
        rcases List.mem_map.mp hmem with ⟨r, hr, hkey⟩
        exact (h2 r hr).1 (hkey ▸ List.mem_cons_self _ _)
      · intro r hr
        rcases List.mem_cons.mp hr with h | h
        · subst h; exact ⟨hc.2, hc.1⟩
        · obtain ⟨hn, hne⟩ := h2 r h
          exact ⟨fun hs => hn (List.mem_cons_of_mem _ hs), hne⟩
    · obtain ⟨h1, h2⟩ := ih seen
      exact ⟨h1, fun r hr => h2 r hr⟩

/-- Helper: every entry deduplication keeps is the first entry of the input
list carrying its key. -/
theorem dedupByKey_first :
    ∀ (l : List Rated) (seen : List (List Char)), ∀ r ∈ dedupByKey l seen,
      l.find? (fun x => x.site.key == r.site.key) = some r := by
  intro l
  induction l with
  | nil => intro seen r hr; simp [dedupByKey] at hr
  | cons x rest ih =>
    intro seen r hr
    simp only [dedupByKey] at hr
    split_ifs at hr with hc
    · rcases List.mem_cons.mp hr with h | h
      · subst h
        exact List.find?_cons_of_pos _ (by simp)
      · have hk := (dedupByKey_keys rest (x.site.key :: seen)).2 r h
        have hne : (x.site.key == r.site.key) = false := by
          simp only [beq_eq_false_iff_ne, ne_eq]
          intro heq
          exact hk.1 (heq ▸ List.mem_cons_self _ _)
        rw [List.find?_cons_of_neg _ (by simp [hne])]
        exact ih _ r h
    · have hk := (dedupByKey_keys rest seen).2 r hr
      have hne : (x.site.key == r.site.key) = false := by
        simp only [beq_eq_false_iff_ne, ne_eq]
        intro heq
        rcases not_and_or.mp hc with h0 | h0
        · exact hk.2 (heq ▸ (not_not.mp h0))
        · exact hk.1 (heq ▸ (not_not.mp h0))
      rw [List.find?_cons_of_neg _ (by simp [hne])]
      exact ih seen r hr

/-- C9: the scoring/filtering consumer interface — per-config rating and
threshold filtering (`filter_quality_sites`) merged by `analyze_all_configs` —
returns a subset of the input sites (each carrying its `rate_site` rating and
meeting the threshold), ranked by descending score, deduplicated by identity
key with the first-encountered entry kept when two sites share a key. -/
theorem mergedQuality_ranked_dedup (configs : List (List Site)) (min_score : Int)
    (allow_cloud : Bool) :
    (∀ r ∈ mergedQualityList configs min_score allow_cloud,
        min_score ≤ r.rating.score ∧ r.rating = rateSite r.site allow_cloud ∧
        ∃ sites ∈ configs, r.site ∈ sites) ∧
    List.Pairwise (fun a b => b.rating.score ≤ a.rating.score)
      (mergedQualityList configs min_score allow_cloud) ∧
    ((mergedQualityList configs min_score allow_cloud).map fun r => r.site.key).Nodup ∧
    (∀ r ∈ mergedQualityList configs min_score allow_cloud,
      (mergedCandidates configs min_score allow_cloud).find?
        (fun x => x.site.key == r.site.key) = some r) := by
  have hperm : (mergedQualityList configs min_score allow_cloud).Perm
      (dedupByKey (mergedCandidates configs min_score allow_cloud) []) :=
    List.mergeSort_perm _ scoreDescLe
  refine ⟨?_, ?_, ?_, ?_⟩
  · intro r hr
    have hd := hperm.mem_iff.mp hr
    have hin := dedupByKey_subset _ [] r hd
    simp only [mergedCandidates] at hin
    rcases List.mem_flatten.mp hin with ⟨ql, hql, hrql⟩
    rcases List.mem_map.mp hql with ⟨sites, hsites, rfl⟩
    simp only [filterQualitySites] at hrql
    obtain ⟨hmem2, hsc⟩ := List.mem_filter.mp hrql
    have hm3 : r ∈ sites.map fun site => Rated.mk site (rateSite site allow_cloud) :=
      (List.mergeSort_perm _ scoreDescLe).mem_iff.mp hmem2
    rcases List.mem_map.mp hm3 with ⟨site, hsite, rfl⟩
    exact ⟨of_decide_eq_true hsc, rfl, sites, hsites, hsite⟩
  · have htrans : ∀ a b c : Rated, scoreDescLe a b = true → scoreDescLe b c = true →
        scoreDescLe a c = true := by
      intro a b c hab hbc
      simp only [scoreDescLe, decide_eq_true_eq] at *
      omega
    have htotal : ∀ a b : Rated, (scoreDescLe a b || scoreDescLe b a) = true := by
      intro a b
      simp only [scoreDescLe, Bool.or_eq_true, decide_eq_true_eq]
      omega
    have hs := List.sorted_mergeSort htrans htotal
      (dedupByKey (mergedCandidates configs min_score allow_cloud) [])
    exact hs.imp fun h => by
      simpa [scoreDescLe, decide_eq_true_eq] using h
  · have h1 := (dedupByKey_keys (mergedCandidates configs min_score allow_cloud) []).1
    exact ((hperm.map fun r => r.site.key).nodup_iff).mpr h1
  · intro r hr
    exact dedupByKey_first _ [] r (hperm.mem_iff.mp hr)

/-- C9 witness: two sites sharing identity key "a" in one config; the merged
output keeps the first-encountered entry, which meets the threshold and is
the first candidate with that key. -/
theorem mergedQuality_ranked_dedup_witness :
    (50 : Int) ≤ (rateSite exSiteA false).score ∧
    (mergedCandidates [[exSiteA, exSiteB]] 50 false).find?
      (fun x => x.site.key == (⟨exSiteA, rateSite exSiteA false⟩ : Rated).site.key) =
      some ⟨exSiteA, rateSite exSiteA false⟩ := by
  have h := mergedQuality_ranked_dedup [[exSiteA, exSiteB]] 50 false
  have e1 : rateSite exSiteA false =
      ⟨100, ["API类型（稳定）".data, "知名站点(量子)".data, "在线API".data],
        "api".data⟩ := by decide
  have e2 : rateSite exSiteB false =
      ⟨50, ["API类型（稳定）".data], "api".data⟩ := by decide
  have hm : (⟨exSiteA, rateSite exSiteA false⟩ : Rated) ∈
      mergedQualityList [[exSiteA, exSiteB]] 50 false := by
    simp only [exSiteA, exSiteB] at e1 e2 ⊢
    simp [mergedQualityList, mergedCandidates, filterQualitySites, List.mergeSort,
      scoreDescLe, dedupByKey, e1, e2]
  exact ⟨(h.1 _ hm).1, h.2.2.2 _ hm⟩

theorem downloadPlugin_trace_depth (env : Env) (url out : List Char)
    (depth maxDepth : Nat) (fs : List (List Char)) :
    ∀ e ∈ (downloadPlugin env url out depth maxDepth fs).trace,
      depth ≤ e.2 ∧ e.2 ≤ maxDepth := by
  refine @downloadPlugin.induct env
    (fun url out depth maxDepth fs =>
      ∀ e ∈ (downloadPlugin env url out depth maxDepth fs).trace,
        depth ≤ e.2 ∧ e.2 ≤ maxDepth)
    (fun baseUrl content curPath depth maxDepth fs =>
      ∀ e ∈ (processJsDeps env baseUrl content curPath depth maxDepth fs).2,
        depth + 1 ≤ e.2 ∧ e.2 ≤ maxDepth)
    (fun deps baseUrl curPath depth maxDepth fs =>
      ∀ e ∈ (processDepList env deps baseUrl curPath depth maxDepth fs).2,
        depth + 1 ≤ e.2 ∧ e.2 ≤ maxDepth)
    ?_ ?_ ?_ ?_ ?_ ?_ ?_ ?_ ?_ ?_ url out depth maxDepth fs
  · intro url out depth maxDepth fs hgt e he
    simp [downloadPlugin, hgt] at he
  · intro url out depth maxDepth fs h0 url1 content fs1 hjs hnet ih e he
    have hnet' : env.net (encodeUrl env url) = .ok 200 content := hnet
    simp only [downloadPlugin, hnet', h0, if_false, dif_pos hjs, if_pos] at he
    rcases List.mem_cons.mp he with rfl | hmem
    · exact ⟨Nat.le_refl _, by omega⟩
    · have h2 := ih e hmem
      exact ⟨by omega, h2.2⟩
  · intro url out depth maxDepth fs h0 url1 content hnjs hnet e he
    have hnet' : env.net (encodeUrl env url) = .ok 200 content := hnet
    simp only [downloadPlugin, hnet', h0, if_false, dif_neg hnjs, if_pos] at he
    simp at he
    subst he
    exact ⟨Nat.le_refl _, by omega⟩
  · intro url out depth maxDepth fs h0 url1 status content hnet hne e he
    have hnet' : env.net (encodeUrl env url) = .ok status content := hnet
    simp only [downloadPlugin, hnet', h0, if_false, if_neg hne] at he
    simp at he
    subst he
    exact ⟨Nat.le_refl _, by omega⟩
  · intro url out depth maxDepth fs h0 url1 hnone e he
    cases hc : env.net (encodeUrl env url) with
    | ok s c => exact absurd hc (fun h => hnone s c h)
    | httpError code =>
      simp only [downloadPlugin, hc, h0, if_false] at he
      simp at he
      subst he
      exact ⟨Nat.le_refl _, by omega⟩
    | urlError r =>
      simp only [downloadPlugin, hc, h0, if_false] at he
      simp at he
      subst he
      exact ⟨Nat.le_refl _, by omega⟩
    | exn m =>
      simp only [downloadPlugin, hc, h0, if_false] at he
      simp at he
      subst he
      exact ⟨Nat.le_refl _, by omega⟩
  · intro baseUrl content curPath depth maxDepth fs ih e he
    simp only [processJsDeps] at he
    exact ih e he
  · intro baseUrl curPath depth maxDepth fs e he
    simp [processDepList] at he
  · intro baseUrl curPath depth maxDepth fs dep rest hpre ih e he
    simp only [processDepList, hpre, if_true] at he
    exact ih e he
  · intro baseUrl curPath depth maxDepth fs dep rest hpre depPath hin ih e he
    have hin' : env.resolve (joinPath (pathParent curPath) dep) ∈ fs := hin
    simp only [processDepList, hpre, if_false, hin', if_true] at he
    exact ih e he
  · intro baseUrl curPath depth maxDepth fs dep rest hpre baseDirUrl depUrl depPath hnin r ih1 ih2 ih3 e he
    have hnin' : env.resolve (joinPath (pathParent curPath) dep) ∉ fs := hnin
    simp only [processDepList, hpre, if_false, hnin'] at he
    rcases List.mem_append.mp he with hL | hR
    · have h2 := ih2 e hL
      exact h2
    · exact ih3 e hR

/-- C3: dependency resolution is depth-bounded.  (a) Every network request a
top-level `download_plugin(url, dest, 0, maxDepth)` call issues is issued at
depth at most `maxDepth`.  (b) Any call at a depth beyond `maxDepth` returns
failure, writes nothing, and performs no network I/O (empty request trace).
(c) A dependency whose resolved cache path already exists on disk is skipped
without any fetch.  Termination — even on a cyclic dependency graph — holds by
construction: the model is a total Lean function whose well-founded recursion
mirrors the code's strictly increasing depth argument. -/
theorem downloadPlugin_depth_bounded (env : Env) (url out : List Char)
    (maxDepth : Nat) (fs : List (List Char)) :
    (∀ e ∈ (downloadPlugin env url out 0 maxDepth fs).trace, e.2 ≤ maxDepth) ∧
    (∀ url2 out2 depth2 fs2, depth2 > maxDepth →
      downloadPlugin env url2 out2 depth2 maxDepth fs2 = ⟨false, none, fs2, []⟩) ∧
    (∀ dep rest baseUrl curPath depth2 fs2,
      ¬ "http".data.isPrefixOf dep = true →
      env.resolve (joinPath (pathParent curPath) dep) ∈ fs2 →
      processDepList env (dep :: rest) baseUrl curPath depth2 maxDepth fs2 =
        processDepList env rest baseUrl curPath depth2 maxDepth fs2) := by
  refine ⟨?_, ?_, ?_⟩
  · intro e he
    exact (downloadPlugin_trace_depth env url out 0 maxDepth fs e he).2
  · intro url2 out2 depth2 fs2 hgt
    simp [downloadPlugin, hgt]
  · intro dep rest baseUrl curPath depth2 fs2 hpre hin
    simp [processDepList, hpre, hin]

/-- C3 witness: with a concrete environment whose every request raises, the
single request of a top-level call is at depth 0 ≤ 3; a call at depth 4 > 3
fails with an empty trace; a dependency whose cache path exists is skipped. -/
theorem downloadPlugin_depth_bounded_witness :
    (("u".data, 0) : List Char × Nat) ∈
      (downloadPlugin exEnv "u".data "p".data 0 3 []).trace ∧
    (("u".data, 0) : List Char × Nat).2 ≤ 3 ∧
    downloadPlugin exEnv "u".data "p".data 4 3 [] = ⟨false, none, [], []⟩ ∧
    processDepList exEnv ["d".data] "b".data "p".data 0 3 ["./d".data] =
      processDepList exEnv [] "b".data "p".data 0 3 ["./d".data] := by
  have h := downloadPlugin_depth_bounded exEnv "u".data "p".data 3 []
  have hmem : (("u".data, 0) : List Char × Nat) ∈
      (downloadPlugin exEnv "u".data "p".data 0 3 []).trace := by
    simp [downloadPlugin, exEnv, encodeUrl, splitFirst]
  refine ⟨hmem, h.1 _ hmem, h.2.1 "u".data "p".data 4 [] (by omega), ?_⟩
  exact h.2.2 "d".data [] "b".data "p".data 0 ["./d".data] (by decide) (by decide)

/-- Helper: `test_api_site` characterized by the resolved request URL — no
resolvable URL yields the fixed relative-path failure; otherwise the verdict
and reason are determined by the network outcome at the resolved URL. -/
theorem testApiSite_eq (env : Env) (site : Site) (baseUrl : List Char) :
    (resolveApiUrl env site baseUrl = none →
      testApiSite env site baseUrl = ⟨false, "相对路径但无基础URL".data, []⟩) ∧
    (∀ u, resolveApiUrl env site baseUrl = some u →
      testApiSite env site baseUrl =
        match env.net u with
        | .ok status content =>
          if status = 200 then
            if hasApiMarker content then ⟨true, "API 可访问".data, [u]⟩
            else ⟨false, "返回内容格式异常".data, [u]⟩
          else ⟨false, "HTTP ".data ++ (Nat.repr status).data, [u]⟩
        | .httpError code => ⟨false, "HTTP ".data ++ (Nat.repr code).data, [u]⟩
        | .urlError r => ⟨false, "URL Error: ".data ++ r, [u]⟩
        | .exn m => ⟨false, m, [u]⟩) := by
  constructor
  · intro hres
    by_cases hp : "http".data.isPrefixOf site.api = true
    · simp [resolveApiUrl, hp] at hres
    · by_cases hb : baseUrl = []
      · simp [testApiSite, hp, hb]
      · simp [resolveApiUrl, hp, hb] at hres
  · intro u hres
    by_cases hp : "http".data.isPrefixOf site.api = true
    · simp [resolveApiUrl, hp] at hres
      subst hres
      simp [testApiSite, hp]
    · by_cases hb : baseUrl = []
      · simp [resolveApiUrl, hp, hb] at hres
      · simp [resolveApiUrl, hp, hb] at hres
        subst hres
        simp [testApiSite, hp, hb]

/-- Helper: `test_api_site` always produces a non-empty reason string, as
long as transport exceptions carry a non-empty message. -/
theorem testApiSite_reason_ne (env : Env) (site : Site) (baseUrl : List Char)
    (hwf : ∀ u m, env.net u = NetResp.exn m → m ≠ []) :
    (testApiSite env site baseUrl).reason ≠ [] := by
  obtain ⟨hnone, hsome⟩ := testApiSite_eq env site baseUrl
  cases hres : resolveApiUrl env site baseUrl with
  | none => rw [hnone hres]; simp
  | some u =>
    rw [hsome u hres]
    cases hnet : env.net u with
    | ok status content =>
      by_cases hs : status = 200
      · subst hs
        by_cases hm : hasApiMarker content = true
        · simp [hm]
        · simp [hm]
      · simp [hs]
    | httpError code => simp
    | urlError r => simp
    | exn m =>
      simp only []
      exact hwf _ _ hnet

/-- C6: `test_api_site` judges an API site valid iff the GET of the resolved
URL answers status 200 with a body containing an XML/RSS marker or a JSON
opening brace; every other status, content shape, or transport outcome yields
(false, reason) with the reason naming the cause (HTTP status code, URL-error
/ exception text, or the format anomaly). -/
theorem testApiSite_spec (env : Env) (site : Site) (baseUrl : List Char) :
    ((testApiSite env site baseUrl).valid = true ↔
      ∃ u c, resolveApiUrl env site baseUrl = some u ∧ env.net u = .ok 200 c ∧
        hasApiMarker c = true) ∧
    (resolveApiUrl env site baseUrl = none →
      testApiSite env site baseUrl = ⟨false, "相对路径但无基础URL".data, []⟩) ∧
    (∀ u, resolveApiUrl env site baseUrl = some u →
      (∀ c, env.net u = .ok 200 c → hasApiMarker c = true →
        testApiSite env site baseUrl = ⟨true, "API 可访问".data, [u]⟩) ∧
      (∀ s c, env.net u = .ok s c → s ≠ 200 →
        (testApiSite env site baseUrl).reason = "HTTP ".data ++ (Nat.repr s).data) ∧
      (∀ c, env.net u = .ok 200 c → hasApiMarker c = false →
        (testApiSite env site baseUrl).reason = "返回内容格式异常".data) ∧
      (∀ code, env.net u = .httpError code →
        (testApiSite env site baseUrl).reason = "HTTP ".data ++ (Nat.repr code).data) ∧
      (∀ m, env.net u = .urlError m →
        (testApiSite env site baseUrl).reason = "URL Error: ".data ++ m) ∧
      (∀ m, env.net u = .exn m → (testApiSite env site baseUrl).reason = m)) := by
  obtain ⟨hnone, hsome⟩ := testApiSite_eq env site baseUrl
  refine ⟨?_, hnone, ?_⟩
  · cases hres : resolveApiUrl env site baseUrl with
    | none =>
      rw [hnone hres]
      simp [hres]
    | some u =>
      rw [hsome u hres]
      cases hnet : env.net u with
      | ok status content =>
        by_cases hs : status = 200
        · subst hs
          by_cases hm : hasApiMarker content = true
          · simp [hres, hnet, hm]
          · simp [hres, hnet, hm]
        · simp [hres, hnet, hs]
      | httpError code => simp [hres, hnet]
      | urlError r => simp [hres, hnet]
      | exn m => simp [hres, hnet]
  · intro u hres
    rw [hsome u hres]
    refine ⟨?_, ?_, ?_, ?_, ?_, ?_⟩
    · intro c hc hm
      rw [hc]
      simp [hm]
    · intro s c hc hs
      rw [hc]
      simp [hs]
    · intro c hc hm
      rw [hc]
      simp [hm]
    · intro code hc
      rw [hc]
    · intro m hc
      rw [hc]
    · intro m hc
      rw [hc]

/-- C6 witness: a 200/JSON endpoint is judged valid; an endpoint whose
request raises is judged by the exception text. -/
theorem testApiSite_spec_witness :
    (testApiSite exEnvOkJson { api := "http://a".data } []).valid = true ∧
    (testApiSite exEnv { api := "http://a".data } []).reason = "boom".data :=
  ⟨((testApiSite_spec exEnvOkJson { api := "http://a".data } []).1).mpr
      ⟨"http://a".data, "\x7b\x7d".data, by decide, rfl, by decide⟩,
    (((testApiSite_spec exEnv { api := "http://a".data } []).2.2 "http://a".data
      (by decide)).2.2.2.2.2) "boom".data rfl⟩

/-- Helper: the script branch of `validate_site` always sets the record's
`valid` consistently with the returned flag, and a non-empty reason. -/
theorem validateScript_flags (env : Env) (site : Site)
    (baseUrl downloadDir : List Char) (fs : List (List Char))
    (stype : SiteType) (key : List Char) (info0 : VInfo) :
    (validateScript env site baseUrl downloadDir fs stype key info0).info.valid =
      (validateScript env site baseUrl downloadDir fs stype key info0).valid ∧
    (validateScript env site baseUrl downloadDir fs stype key info0).info.reason ≠ [] := by
  simp only [validateScript]
  split_ifs <;> simp

/-- Helper: the jar branch of `validate_site` always sets the record's
`valid` consistently with the returned flag, and a non-empty reason. -/
theorem validateJar_flags (env : Env) (site : Site)
    (baseUrl downloadDir : List Char) (fs : List (List Char))
    (key : List Char) (info0 : VInfo) :
    (validateJar env site baseUrl downloadDir fs key info0).info.valid =
      (validateJar env site baseUrl downloadDir fs key info0).valid ∧
    (validateJar env site baseUrl downloadDir fs key info0).info.reason ≠ [] := by
  simp only [validateJar]
  split_ifs <;> simp

/-- Helper: the returned flag of `validate_site` always equals the `valid`
field of the record it returns. -/
theorem validateSite_info_valid (env : Env) (site : Site)
    (baseUrl downloadDir : List Char) (fs : List (List Char)) :
    (validateSite env site baseUrl downloadDir fs).info.valid =
      (validateSite env site baseUrl downloadDir fs).valid := by
  cases hc : classifySite site with
  | api => simp [validateSite, hc]
  | js =>
    simpa [validateSite, hc] using
      (validateScript_flags env site baseUrl downloadDir fs .js (validateKey site)
        { key := validateKey site, name := validateName site, stype := SiteType.js,
          valid := false, reason := [] }).1
  | python =>
    simpa [validateSite, hc] using
      (validateScript_flags env site baseUrl downloadDir fs .python (validateKey site)
        { key := validateKey site, name := validateName site, stype := SiteType.python,
          valid := false, reason := [] }).1
  | jar =>
    simpa [validateSite, hc] using
      (validateJar_flags env site baseUrl downloadDir fs (validateKey site)
        { key := validateKey site, name := validateName site, stype := SiteType.jar,
          valid := false, reason := [] }).1
  | unknown => simp [validateSite, hc]

/-- C4: `validate_site` is a total function of the descriptor and the
network/filesystem oracle (no exception escapes, by construction of the
model); the returned record's `valid` matches the returned flag, its
diagnostic reason is never empty (given that transport exceptions carry a
non-empty `str(e)`), and in particular an unclassifiable descriptor yields an
invalid record with the fixed unknown-type reason. -/
theorem validateSite_no_silent_failure (env : Env) (site : Site)
    (baseUrl downloadDir : List Char) (fs : List (List Char))
    (hwf : ∀ u m, env.net u = NetResp.exn m → m ≠ []) :
    (validateSite env site baseUrl downloadDir fs).info.valid =
      (validateSite env site baseUrl downloadDir fs).valid ∧
    (validateSite env site baseUrl downloadDir fs).info.reason ≠ [] ∧
    (classifySite site = .unknown →
      (validateSite env site baseUrl downloadDir fs).valid = false ∧
      (validateSite env site baseUrl downloadDir fs).info.reason = "未知类型".data) := by
  cases hc : classifySite site with
  | api =>
    refine ⟨by simp [validateSite, hc], ?_, fun h => absurd h (by decide)⟩
    simpa [validateSite, hc] using testApiSite_reason_ne env site baseUrl hwf
  | js =>
    have hs := validateScript_flags env site baseUrl downloadDir fs .js (validateKey site)
      { key := validateKey site, name := validateName site, stype := SiteType.js,
        valid := false, reason := [] }
    refine ⟨?_, ?_, fun h => absurd h (by decide)⟩
    · simpa [validateSite, hc] using hs.1
    · simpa [validateSite, hc] using hs.2
  | python =>
    have hs := validateScript_flags env site baseUrl downloadDir fs .python (validateKey site)
      { key := validateKey site, name := validateName site, stype := SiteType.python,
        valid := false, reason := [] }
    refine ⟨?_, ?_, fun h => absurd h (by decide)⟩
    · simpa [validateSite, hc] using hs.1
    · simpa [validateSite, hc] using hs.2
  | jar =>
    have hs := validateJar_flags env site baseUrl downloadDir fs (validateKey site)
      { key := validateKey site, name := validateName site, stype := SiteType.jar,
        valid := false, reason := [] }
    refine ⟨?_, ?_, fun h => absurd h (by decide)⟩
    · simpa [validateSite, hc] using hs.1
    · simpa [validateSite, hc] using hs.2
  | unknown =>
    exact ⟨by simp [validateSite, hc], by simp [validateSite, hc],
      fun _ => ⟨by simp [validateSite, hc], by simp [validateSite, hc]⟩⟩

/-- C4 witness: an unclassifiable descriptor under an environment whose
requests raise with message "boom". -/
theorem validateSite_no_silent_failure_witness :
    (validateSite exEnv { api := "weird".data } [] "dl".data []).valid = false ∧
    (validateSite exEnv { api := "weird".data } [] "dl".data []).info.reason =
      "未知类型".data :=
  (validateSite_no_silent_failure exEnv { api := "weird".data } [] "dl".data []
    (by intro u m h; cases h; decide)).2.2 (by decide)

/-- C7: an archive-category site whose address starts with `csp_` and whose
jar field is empty is marked valid with the shared/global-JAR reason, the
descriptor and cache are untouched, and zero outbound requests are made. -/
theorem validateSite_csp_global_jar (env : Env) (site : Site)
    (baseUrl downloadDir : List Char) (fs : List (List Char))
    (h1 : classifySite site = .jar) (h2 : "csp_".data.isPrefixOf site.api = true)
    (h3 : site.jar = []) :
    (validateSite env site baseUrl downloadDir fs).valid = true ∧
    (validateSite env site baseUrl downloadDir fs).info.reason =
      "CSP 插件，使用全局 JAR".data ∧
    (validateSite env site baseUrl downloadDir fs).trace = [] ∧
    (validateSite env site baseUrl downloadDir fs).site = site ∧
    (validateSite env site baseUrl downloadDir fs).fs = fs := by
  simp [validateSite, h1, validateJar, h2, h3]

/-- C7 witness: a concrete `csp_` site with no jar field. -/
theorem validateSite_csp_global_jar_witness :
    (validateSite exEnv { key := "k".data, api := "csp_Test".data } [] "dl".data []).valid
        = true ∧
    (validateSite exEnv { key := "k".data, api := "csp_Test".data } [] "dl".data []).trace
        = [] := by
  have h := validateSite_csp_global_jar exEnv { key := "k".data, api := "csp_Test".data }
    [] "dl".data [] (by decide) (by decide) (by decide)
  exact ⟨h.1, h.2.2.1⟩

/-- Helper: along the per-site loop of `validate_config`, the kept-site
list is exactly as long as the valid-marked detail records, never longer
than the input, and one detail record is produced per site. -/
theorem runSites_counts (env : Env) (baseUrl downloadDir : List Char) :
    ∀ (sites : List Site) (fs : List (List Char)),
      (runSites env baseUrl downloadDir sites fs).2.1.length =
        ((runSites env baseUrl downloadDir sites fs).1.filter fun i => i.valid).length ∧
      (runSites env baseUrl downloadDir sites fs).2.1.length ≤ sites.length ∧
      (runSites env baseUrl downloadDir sites fs).1.length = sites.length := by
  intro sites
  induction sites with
  | nil => intro fs; simp [runSites]
  | cons site rest ih =>
    intro fs
    obtain ⟨ih1, ih2, ih3⟩ := ih (validateSite env site baseUrl downloadDir fs).fs
    have hinfo := validateSite_info_valid env site baseUrl downloadDir fs
    by_cases hv : (validateSite env site baseUrl downloadDir fs).valid = true
    · simp [runSites, List.filter_cons, hinfo, hv, ih1, ih2, ih3]
      omega
    · have hv' : (validateSite env site baseUrl downloadDir fs).valid = false := by
        simpa using hv
      simp [runSites, List.filter_cons, hinfo, hv', ih1, ih2, ih3]
      omega

/-- C5: for every validation run, the clean manifest's site count equals
the number of ValidationRecords with valid = true, never exceeds the input
site count, and is the count the report publishes. -/
theorem validateConfig_counts (env : Env) (config : VConfig)
    (baseUrl downloadDir : List Char) (fs : List (List Char)) :
    (validateConfig env config baseUrl downloadDir fs).2.sites.length =
      ((validateConfig env config baseUrl downloadDir fs).1.validation_details.filter
        fun i => i.valid).length ∧
    (validateConfig env config baseUrl downloadDir fs).2.sites.length ≤
      config.sites.length ∧
    (validateConfig env config baseUrl downloadDir fs).1.valid_sites =
      (validateConfig env config baseUrl downloadDir fs).2.sites.length := by
  obtain ⟨h1, h2, _⟩ := runSites_counts env baseUrl downloadDir config.sites fs
  exact ⟨by simpa [validateConfig] using h1, by simpa [validateConfig] using h2,
    by simp [validateConfig]⟩

/-- Helper: on every successful script download the branch rewrites the
descriptor's address to the local cache path, and `ext` identically when it
equalled the original address — on every verdict. -/
theorem validateScript_site_rewrite (env : Env) (site : Site)
    (baseUrl downloadDir : List Char) (fs : List (List Char))
    (stype : SiteType) (key : List Char) (info0 : VInfo)
    (hdl : (downloadPlugin env (pluginUrlOf env baseUrl site.api)
      (downloadDir ++ "/".data ++ sanitizeKey key ++ scriptFileExt stype) 0 3 fs).ok
        = true)
    (hct : (downloadPlugin env (pluginUrlOf env baseUrl site.api)
      (downloadDir ++ "/".data ++ sanitizeKey key ++ scriptFileExt stype) 0 3 fs).content.getD
        [] ≠ []) :
    (validateScript env site baseUrl downloadDir fs stype key info0).site =
      { site with
        api := "./plugins/".data ++ sanitizeKey key ++ scriptFileExt stype,
        ext := if site.ext = site.api then
            "./plugins/".data ++ sanitizeKey key ++ scriptFileExt stype
          else site.ext } := by
  simp only [validateScript]
  rw [if_pos ⟨hdl, hct⟩]
  split_ifs <;> rfl

/-- C10: for every script-category (js/python) site whose plugin download
succeeds (with non-empty content), `validate_site` rewrites the descriptor's
address in place to `./plugins/<sanitized-key><ext>`, rewrites the `ext`
field identically exactly when it equalled the original address, and leaves
`ext` alone otherwise — regardless of the final verdict, so the mutation is
not reverted when the site is judged invalid. -/
theorem validateSite_rewrites_address (env : Env) (site : Site)
    (baseUrl downloadDir : List Char) (fs : List (List Char))
    (hty : classifySite site = .js ∨ classifySite site = .python)
    (hdl : (downloadPlugin env (pluginUrlOf env baseUrl site.api)
      (downloadDir ++ "/".data ++ sanitizeKey (validateKey site) ++
        scriptFileExt (classifySite site)) 0 3 fs).ok = true)
    (hct : (downloadPlugin env (pluginUrlOf env baseUrl site.api)
      (downloadDir ++ "/".data ++ sanitizeKey (validateKey site) ++
        scriptFileExt (classifySite site)) 0 3 fs).content.getD [] ≠ []) :
    (validateSite env site baseUrl downloadDir fs).site.api =
      "./plugins/".data ++ sanitizeKey (validateKey site) ++
        scriptFileExt (classifySite site) ∧
    (site.ext = site.api →
      (validateSite env site baseUrl downloadDir fs).site.ext =
        "./plugins/".data ++ sanitizeKey (validateKey site) ++
          scriptFileExt (classifySite site)) ∧
    (site.ext ≠ site.api →
      (validateSite env site baseUrl downloadDir fs).site.ext = site.ext) := by
  rcases hty with hty | hty
  · rw [hty] at hdl hct
    have hr := validateScript_site_rewrite env site baseUrl downloadDir fs .js
      (validateKey site)
      { key := validateKey site, name := validateName site, stype := SiteType.js,
        valid := false, reason := [] } hdl hct
    have hsite : (validateSite env site baseUrl downloadDir fs).site =
        (validateScript env site baseUrl downloadDir fs .js (validateKey site)
          { key := validateKey site, name := validateName site, stype := SiteType.js,
            valid := false, reason := [] }).site := by
      simp [validateSite, hty]
    rw [hsite, hr, hty]
    refine ⟨rfl, ?_, ?_⟩
    · intro he
      simp [he]
    · intro he
      simp [he]
  · rw [hty] at hdl hct
    have hr := validateScript_site_rewrite env site baseUrl downloadDir fs .python
      (validateKey site)
      { key := validateKey site, name := validateName site, stype := SiteType.python,
        valid := false, reason := [] } hdl hct
    have hsite : (validateSite env site baseUrl downloadDir fs).site =
        (validateScript env site baseUrl downloadDir fs .python (validateKey site)
          { key := validateKey site, name := validateName site, stype := SiteType.python,
            valid := false, reason := [] }).site := by
      simp [validateSite, hty]
    rw [hsite, hr, hty]
    refine ⟨rfl, ?_, ?_⟩
    · intro he
      simp [he]
    · intro he
      simp [he]

/-- Helper: the concrete plugin download of the C10 witness environment. -/
theorem exJs_download_eq :
    downloadPlugin exEnvJs (pluginUrlOf exEnvJs [] exJsSite.api)
      ("dl".data ++ "/".data ++ sanitizeKey (validateKey exJsSite) ++
        scriptFileExt (classifySite exJsSite)) 0 3 [] =
      ⟨true, some "X".data, ["dl/k.js".data], [("http://p.js".data, 0)]⟩ := by
  simp [downloadPlugin, processJsDeps, processDepList, exEnvJs, exJsSite, encodeUrl,
    splitFirst, pathSuffix, pathName, pluginUrlOf, sanitizeKey, validateKey,
    scriptFileExt, classifySite, containsSub]

/-- Helper: literal-argument form of `exJs_download_eq`. -/
theorem exJs_download_eq_lit :
    downloadPlugin exEnvJs "http://p.js".data "dl/k.js".data 0 3 [] =
      ⟨true, some "X".data, ["dl/k.js".data], [("http://p.js".data, 0)]⟩ :=
  exJs_download_eq

/-- C10 witness: the concrete js site is judged invalid (its only embedded
URL is dead), yet its address and matching `ext` are rewritten to the local
cache path. -/
theorem validateSite_rewrites_address_witness :
    (validateSite exEnvJs exJsSite [] "dl".data []).valid = false ∧
    (validateSite exEnvJs exJsSite [] "dl".data []).site.api = "./plugins/k.js".data ∧
    (validateSite exEnvJs exJsSite [] "dl".data []).site.ext = "./plugins/k.js".data := by
  have h := validateSite_rewrites_address exEnvJs exJsSite [] "dl".data []
    (by decide) (by rw [exJs_download_eq]) (by rw [exJs_download_eq]; decide)
  have hn1 : exEnvJs.net "http://dead".data = .exn "down".data := by simp [exEnvJs]
  have hx : exEnvJs.extractUrls "X".data = ["http://dead".data] := rfl
  have hd : exEnvJs.extractDomains "X".data = ["dead".data] := rfl
  have hlit := exJs_download_eq_lit
  simp at hn1 hx hd hlit
  refine ⟨?_, ?_, ?_⟩
  · simp [validateSite, validateScript, classifySite, exJsSite, containsSub,
      validateKey, validateName, hlit, testPluginUrls, updateAssoc,
      hn1, hx, hd, classifyPluginVariant, sanitizeKey, scriptFileExt, pluginUrlOf]
  · rw [h.1]
    decide
  · rw [h.2.1 (by decide)]
    decide
